import Mathlib

/-!
Verification of the p4-lsp analytical core against its specification.

The development shallowly embeds the Rust sources:
  * `src/ast/translator.rs`      — the CST→AST translator,
  * `src/metadata/ast/tree.rs`   — the abstract node store and AST facade,
  * `src/metadata/metadata.rs`   — the `Metadata` bundle,
  * `src/main.rs`                — the `did_change` session handler.

Rust panics (`todo!`, `panic!`, `Option::unwrap` on `None`,
`Result::unwrap` on `Err`) are modelled as `Except.error` values, so a
function that can panic returns `Except String α`.  Machine integers are
`Nat` with explicit bounds where overflow matters (`u32` widths).
Tree-sitter (the external parsing collaborator) is modelled by the `CST`
type below: each node carries its kind tag, range, spanned source text,
named-ness, optional field name and children, which is exactly the
interface the translator consumes (`kind()`, `range()`, `named_child`,
`child_by_field_name`, `children`, `get_node_text`).
-/

namespace P4

/-- Source position (tower_lsp `Position`): zero-based line and character. -/
structure Position where
  line : Nat
  character : Nat
deriving DecidableEq, Repr

/-- Source range (tower_lsp `Range`); the Rust field `end` is named `stop`
here because `end` is a Lean keyword.  Ranges are half-open. -/
structure Range where
  start : Position
  stop : Position
deriving DecidableEq, Repr

/-- Model of a tree-sitter concrete-syntax-tree node: kind tag, range, the
source text it spans (`utils::get_node_text`), whether it is a named node,
the field name it is attached under (if any), and its children in source
order. -/
inductive CST where
  | mk (kind : String) (range : Range) (text : String) (isNamed : Bool)
       (field : Option String) (children : List CST)

/-- Kind tag of a CST node (`tree_sitter::Node::kind`). -/
def CST.kind : CST → String
  | .mk k _ _ _ _ _ => k

/-- Range of a CST node (`tree_sitter::Node::range`, already converted by
`utils::ts_range_to_lsp_range`). -/
def CST.range : CST → Range
  | .mk _ r _ _ _ _ => r

/-- Source text spanned by a CST node (`utils::get_node_text`). -/
def CST.text : CST → String
  | .mk _ _ t _ _ _ => t

/-- Whether the node is a named grammar node. -/
def CST.isNamed : CST → Bool
  | .mk _ _ _ n _ _ => n

/-- Field name under which the node is attached to its parent. -/
def CST.field : CST → Option String
  | .mk _ _ _ _ f _ => f

/-- Children of a CST node in source order (`Node::children(&mut cursor)`). -/
def CST.children : CST → List CST
  | .mk _ _ _ _ _ cs => cs

/-- Named children of a CST node, in source order. -/
def CST.namedChildren (n : CST) : List CST :=
  n.children.filter CST.isNamed

/-- Model of `tree_sitter::Node::named_child(i)`. -/
def CST.namedChild (n : CST) (i : Nat) : Option CST :=
  n.namedChildren.get? i

/-- Model of `tree_sitter::Node::child_by_field_name(name)`: the first
child attached under the given field name. -/
def CST.child_by_field_name (n : CST) (f : String) : Option CST :=
  n.children.find? (fun c => c.field == some f)

/-- Model of Rust `str::trim`: drop whitespace from both ends. -/
def rust_trim (s : String) : String :=
  String.mk (((s.toList.dropWhile Char.isWhitespace).reverse.dropWhile
    Char.isWhitespace).reverse)

/-- Model of Rust `str::starts_with`. -/
def rust_starts_with (s pre : String) : Bool :=
  pre.toList.isPrefixOf s.toList

/-- Model of Rust `str::parse::<u32>()`: an optional leading plus sign,
then decimal digits, rejecting the empty string, non-digits and values
of 2^32 or more. -/
def parse_u32 (s : String) : Option Nat :=
  let t := if rust_starts_with s "+" then String.mk (s.toList.drop 1) else s
  let digits := t.toList
  if digits = [] then none
  else if digits.all Char.isDigit then
    let n := digits.foldl (fun acc c => acc * 10 + (c.toNat - 48)) 0
    if n < 4294967296 then some n else none
  else none

/-- Base types (`BaseType` in the AST tree module, see
`src/metadata/ast/tree.rs` &mdash; the `src/ast/tree.rs` twin that
`translator.rs` imports is not part of the sources, its enum constructors
are pinned by the translator and the repository's own test). -/
inductive BaseType where
  | Bool
  | Int
  | Bit
  | String
  | Varbit
  | Error
  | MatchKind
  | SizedInt (width : Option Nat)
  | SizedBit (width : Option Nat)
  | SizedVarbit (width : Option Nat)
deriving DecidableEq, Repr

/-- Type values attached to `NodeKind::Type` (the Rust enum `Type` from
`crate::metadata::types`; that file is not under the sources, so beyond
the `Base` constructor used by the translator the unresolved placeholders
follow the specification's TypeValue description). -/
inductive TypeValue where
  | Base (b : BaseType)
  | NamePlaceholder
  | SpecializedPlaceholder
  | StackPlaceholder
  | TuplePlaceholder
deriving DecidableEq, Repr

/-- Parameter directions (`Direction` in `src/metadata/ast/tree.rs`). -/
inductive Direction where
  | In
  | Out
  | InOut
deriving DecidableEq, Repr

/-- Type-declaration kinds (`TypeDecType` in `src/metadata/ast/tree.rs`). -/
inductive TypeDecType where
  | TypeDef
  | HeaderType
  | HeaderUnion
  | Struct
  | Enum
  | Parser
  | Control
  | Package
deriving DecidableEq, Repr

/-- AST node kinds (`NodeKind` in `src/metadata/ast/tree.rs`). -/
inductive NodeKind where
  | Body
  | Root
  | ConstantDec
  | VariableDec
  | ParserDec
  | Type (t : TypeValue)
  | Direction (d : Direction)
  | TypeDec (t : TypeDecType)
  | Expression
  | Name
  | Param
  | Params
  | Error
  | Value
deriving DecidableEq, Repr

/-- The scope-node kinds (`SCOPE_NODES` in `src/metadata/ast/tree.rs`). -/
def SCOPE_NODES : List NodeKind :=
  [NodeKind.Root, NodeKind.ParserDec, NodeKind.Body]

/-- Model of `NodeKind::is_scope_node`. -/
def NodeKind.is_scope_node (k : NodeKind) : Bool :=
  SCOPE_NODES.contains k

/-- AST node payload (`Node` in `src/metadata/ast/tree.rs`). -/
structure Node where
  kind : NodeKind
  range : Range
  content : String
deriving DecidableEq, Repr

/-- One slot of the arena: the node payload together with the ids of its
children in insertion (source) order.  This models the child-list view of
an `indextree::Arena` node. -/
structure ArenaEntry where
  node : Node
  children : List Nat
deriving DecidableEq, Repr

/-- The node store: `indextree::Arena<Node>`, with node ids as positions
in the list (allocation order). -/
abbrev Arena := List ArenaEntry

/-- Model of `Arena::new_node`: appends a fresh childless entry and
returns its id. -/
def Arena.new_node (a : Arena) (n : Node) : Arena × Nat :=
  (a ++ [⟨n, []⟩], a.length)

/-- Model of `indextree`'s `parent.append(child, arena)`: records `child`
as the last child of `parent`. -/
def Arena.append_child : Arena → Nat → Nat → Arena
  | [], _, _ => []
  | e :: rest, 0, c => ⟨e.node, e.children ++ [c]⟩ :: rest
  | e :: rest, Nat.succ p, c => e :: Arena.append_child rest p c

/-- The AST (`Ast` in `src/metadata/ast/tree.rs`): one arena plus the root
id.  (`src/ast/translator.rs` wraps the root id of its own missing tree
module in `Some`; the in-source tree module stores it bare, which is the
version modelled here — the wrapper is irrelevant to every claim.) -/
structure Ast where
  arena : Arena
  root_id : Nat
deriving DecidableEq, Repr

/-- Model of `parse_base_type` in `src/ast/translator.rs`.  Errors cover
both the `Err("Invalid type")` return value and the panics inside the
function (`named_child(0).unwrap()` on a childless node, and
`parse::<u32>().unwrap()` on an unparsable width); all of them abort
translation, because the caller immediately unwraps the result. -/
def parse_base_type (node : CST) : Except String BaseType :=
  let node_text := node.text
  let text := rust_trim node_text
  if text = "bool" then Except.ok BaseType.Bool
  else if text = "int" then Except.ok BaseType.Int
  else if text = "bit" then Except.ok BaseType.Bit
  else if text = "string" then Except.ok BaseType.String
  else if text = "varbit" then Except.ok BaseType.Varbit
  else if text = "error" then Except.ok BaseType.Error
  else if text = "match_kind" then Except.ok BaseType.MatchKind
  else
    match node.namedChild 0 with
    | none => Except.error "called Option.unwrap on a None value"
    | some child =>
      let size : Except String (Option Nat) :=
        if child.kind = "integer" then
          match parse_u32 child.text with
          | some n => Except.ok (some n)
          | none => Except.error "called Result.unwrap on an Err value: ParseIntError"
        else Except.ok none
      match size with
      | Except.error e => Except.error e
      | Except.ok size =>
        if rust_starts_with text "int" then Except.ok (BaseType.SizedInt size)
        else if rust_starts_with text "bit" then Except.ok (BaseType.SizedBit size)
        else if rust_starts_with text "varbit" then Except.ok (BaseType.SizedVarbit size)
        else Except.error "Invalid type"

/-- The `match child.kind()` dispatch inside `parse_type`
(`src/ast/translator.rs`): `base_type` resolves through
`parse_base_type` (whose `Result` is immediately unwrapped — an `Err`
panics), the four unimplemented shapes hit `todo!()`, and any other kind
hits `panic!("{}", node.kind())`. -/
def parse_type_value (node child : CST) : Except String TypeValue :=
  if child.kind = "base_type" then
    match parse_base_type child with
    | Except.ok b => Except.ok (TypeValue.Base b)
    | Except.error e => Except.error e
  else if child.kind = "type_name" then Except.error "not yet implemented"
  else if child.kind = "specialized_type" then Except.error "not yet implemented"
  else if child.kind = "header_stack_type" then Except.error "not yet implemented"
  else if child.kind = "tuple_type" then Except.error "not yet implemented"
  else Except.error node.kind

/-- Model of `parse_type` in `src/ast/translator.rs`: inspect
`named_child(0)` (unwrap panics when absent), classify it through
`parse_type_value`, then allocate the `Type` node. -/
def parse_type (a : Arena) (node : CST) : Except String (Arena × Option Nat) :=
  match node.namedChild 0 with
  | none => Except.error "called Option.unwrap on a None value"
  | some child =>
    match parse_type_value node child with
    | Except.error e => Except.error e
    | Except.ok type_type =>
      let p := Arena.new_node a ⟨NodeKind.Type type_type, node.range, node.text⟩
      Except.ok (p.1, some p.2)

/-- Model of `parse_name` in `src/ast/translator.rs`: always allocates a
`Name` node and returns `Some` of its id. -/
def parse_name (a : Arena) (node : CST) : Arena × Option Nat :=
  let p := Arena.new_node a ⟨NodeKind.Name, node.range, node.text⟩
  (p.1, some p.2)

/-- Model of `parse_const_dec` in `src/ast/translator.rs`: allocate the
`ConstantDec` node, then append the translated `type` field child and the
translated `name` field child, in that order (the value child is a TODO
in the source).  The `child_by_field_name(..).unwrap()` calls panic when
the field is missing. -/
def parse_const_dec (a : Arena) (node : CST) : Except String (Arena × Option Nat) :=
  let p := Arena.new_node a ⟨NodeKind.ConstantDec, node.range, node.text⟩
  let a1 := p.1
  let node_id := p.2
  match node.child_by_field_name "type" with
  | none => Except.error "called Option.unwrap on a None value"
  | some tnode =>
    match parse_type a1 tnode with
    | Except.error e => Except.error e
    | Except.ok (a2, tid) =>
      match tid with
      | none => Except.error "called Option.unwrap on a None value"
      | some tid =>
        let a2 := Arena.append_child a2 node_id tid
        match node.child_by_field_name "name" with
        | none => Except.error "called Option.unwrap on a None value"
        | some nnode =>
          match parse_name a2 nnode with
          | (_, none) => Except.error "called Option.unwrap on a None value"
          | (a3, some nid) =>
            Except.ok (Arena.append_child a3 node_id nid, some node_id)

/-- The child loop of `parse_root` in `src/ast/translator.rs`: a
`constant_declaration` child is translated and appended to the root, any
other kind yields `None` and contributes nothing. -/
def parse_root_children : Arena → Nat → List CST → Except String Arena
  | a, _, [] => Except.ok a
  | a, root, child :: rest =>
    if child.kind = "constant_declaration" then
      match parse_const_dec a child with
      | Except.error e => Except.error e
      | Except.ok (a', some id) =>
        parse_root_children (Arena.append_child a' root id) root rest
      | Except.ok (a', none) => parse_root_children a' root rest
    else parse_root_children a root rest

/-- Model of `parse_root` in `src/ast/translator.rs`: allocate the `Root`
node (whose content is the whole source text) and process the root's CST
children. -/
def parse_root (source_code : String) (tree : CST) : Except String (Arena × Nat) :=
  let p := Arena.new_node [] ⟨NodeKind.Root, tree.range, source_code⟩
  match parse_root_children p.1 p.2 tree.children with
  | Except.error e => Except.error e
  | Except.ok a => Except.ok (a, p.2)

/-- Model of `TreesitterTranslator::translate`: start from an empty arena
(`TreesitterTranslator::new`), parse the root, and wrap the result. -/
def translate (source_code : String) (tree : CST) : Except String Ast :=
  match parse_root source_code tree with
  | Except.error e => Except.error e
  | Except.ok (a, root_id) => Except.ok ⟨a, root_id⟩

/-- Model of `Visitable::get_root_id` for `Ast`. -/
def Ast.get_root_id (a : Ast) : Nat :=
  a.root_id

/-- Model of `Visitable::get_node` for `Ast`
(`arena.get(node_id).unwrap().get()`); the panic on a dangling id is
modelled by `none`. -/
def Ast.get_node (a : Ast) (node_id : Nat) : Option Node :=
  (a.arena.get? node_id).map ArenaEntry.node

/-- Model of `Visitable::get_child_ids` for `Ast`: the direct children of
a node, in source order. -/
def Ast.get_child_ids (a : Ast) (node_id : Nat) : List Nat :=
  match a.arena.get? node_id with
  | some e => e.children
  | none => []

/-- Model of `Visitable::get_child_of_kind` for `Ast`: the first child of
exactly the given kind, or none. -/
def Ast.get_child_of_kind (a : Ast) (node_id : Nat) (node_kind : NodeKind) : Option Nat :=
  (a.get_child_ids node_id).find? (fun c =>
    match a.get_node c with
    | some n => decide (n.kind = node_kind)
    | none => false)

/-- Model of `Visitable::get_subscope_ids` for `Ast`: the children whose
kind is a scope node. -/
def Ast.get_subscope_ids (a : Ast) (node_id : Nat) : List Nat :=
  (a.get_child_ids node_id).filter (fun c =>
    match a.get_node c with
    | some n => n.kind.is_scope_node
    | none => false)

/-- Model of `Ast::get_error_nodes`: walk the whole arena in insertion
order and collect every node whose kind is `Error`. -/
def Ast.get_error_nodes (a : Ast) : List Node :=
  a.arena.filterMap (fun e =>
    match e.node.kind with
    | NodeKind.Error => some e.node
    | _ => none)

/-- Model of `Ast::get_type`: the type value carried by the first `Type`
child of the given node, if any. -/
def Ast.get_type (a : Ast) (node_id : Nat) : Option TypeValue :=
  (a.get_child_ids node_id).findSome? (fun c =>
    match a.get_node c with
    | some n =>
      match n.kind with
      | NodeKind.Type t => some t
      | _ => none
    | none => none)

/-- Model of `Ast::new` in `src/metadata/ast/tree.rs`: it wraps the result
of `translate` in `Some` unconditionally (panics inside `translate`
propagate, modelled by the outer `Except`). -/
def Ast.new (source_code : String) (syntax_tree : CST) : Except String (Option Ast) :=
  match translate source_code syntax_tree with
  | Except.error e => Except.error e
  | Except.ok a => Except.ok (some a)

/-- One declared symbol.  Modelled from the spec: name plus the range used
for go-to and hover (§3 Symbol). -/
structure Symbol where
  name : String
  range : Range
deriving DecidableEq, Repr

/-- The four symbol buckets returned to completion.  Modelled from the
spec (§4.3 Symbols). -/
structure Symbols where
  types : List Symbol
  constants : List Symbol
  vars : List Symbol
  functions : List Symbol
deriving DecidableEq, Repr

/-- One lexical scope.  Modelled from the spec (§3 Scope): owning node
handle, owning node's range, parent scope, and one bucket per symbol
category.  Scopes are stored flat in depth-first order with parent
indices. -/
structure Scope where
  owning : Nat
  range : Range
  parent : Option Nat
  types : List Symbol
  constants : List Symbol
  vars : List Symbol
  functions : List Symbol
deriving DecidableEq, Repr

/-- The symbol table.  Modelled from the spec: `src/metadata/symbol_table.rs`
is not under the sources; §4.3 describes a single depth-first pass over
the AST that pushes one scope per scope node and records declarations
into the enclosing scope's category buckets. -/
structure SymbolTable where
  scopes : List Scope
deriving DecidableEq, Repr

/-- Symbol extracted from a declaration node: its `Name` child's content
and range.  Modelled from the spec (§4.3). -/
def Ast.symbol_of (a : Ast) (node_id : Nat) : Option Symbol :=
  match a.get_child_of_kind node_id NodeKind.Name with
  | some nid => (a.get_node nid).map (fun n => ⟨n.content, n.range⟩)
  | none => none

/-- Declarations recorded directly in the scope owned by `node_id`:
constants, variables and type declarations among its children.  Modelled
from the spec (§4.3 category mapping). -/
def Ast.scope_decls (a : Ast) (node_id : Nat) : List Symbol × List Symbol × List Symbol :=
  let kids := a.get_child_ids node_id
  let pick (p : NodeKind → Bool) : List Symbol :=
    kids.filterMap (fun c =>
      match a.get_node c with
      | some n => if p n.kind then a.symbol_of c else none
      | none => none)
  ( pick (fun k => match k with | NodeKind.ConstantDec => true | _ => false)
  , pick (fun k => match k with | NodeKind.VariableDec => true | _ => false)
  , pick (fun k => match k with | NodeKind.TypeDec _ => true | _ => false) )

/-- Depth-first scope construction with a fuel bound (the arena size
bounds the nesting depth).  Modelled from the spec (§4.3 single pass). -/
def build_scopes (a : Ast) : Nat → Nat → Option Nat → List Scope → List Scope
  | 0, _, _, acc => acc
  | fuel + 1, node_id, parent, acc =>
    let decls := a.scope_decls node_id
    let r := ((a.get_node node_id).map Node.range).getD ⟨⟨0, 0⟩, ⟨0, 0⟩⟩
    let idx := acc.length
    let acc := acc ++ [⟨node_id, r, parent, decls.2.2, decls.1, decls.2.1, []⟩]
    (a.get_subscope_ids node_id).foldl
      (fun acc s => build_scopes a fuel s (some idx) acc) acc

/-- Modelled from the spec: `SymbolTable::new(&ast)` builds all scopes in
one pass starting at the AST root (§4.3); it is total and never returns
an error. -/
def SymbolTable.new (ast : Ast) : SymbolTable :=
  ⟨build_scopes ast (ast.arena.length + 1) ast.get_root_id none []⟩

/-- Lexicographic order on positions. -/
def Position.le_pos (p q : Position) : Bool :=
  p.line < q.line || (p.line = q.line && p.character ≤ q.character)

/-- Strict lexicographic order on positions. -/
def Position.lt_pos (p q : Position) : Bool :=
  p.line < q.line || (p.line = q.line && p.character < q.character)

/-- Half-open range membership. -/
def Range.contains_pos (r : Range) (p : Position) : Bool :=
  r.start.le_pos p && p.lt_pos r.stop

/-- Innermost scope containing a position: the last containing scope found
during the top-down (depth-first-ordered) narrowing search.  Modelled
from the spec (§4.3). -/
def SymbolTable.innermost (st : SymbolTable) (p : Position) : Option Nat :=
  (List.range st.scopes.length).foldl
    (fun acc i =>
      match st.scopes.get? i with
      | some s => if s.range.contains_pos p then some i else acc
      | none => acc)
    none

/-- Union of a scope's buckets with all ancestor buckets, walking the
parent chain (fuel-bounded by the number of scopes).  Modelled from the
spec (§4.3: no shadowing is applied at this layer). -/
def SymbolTable.collect_chain (st : SymbolTable) : Nat → Nat → Symbols → Symbols
  | 0, _, acc => acc
  | fuel + 1, i, acc =>
    match st.scopes.get? i with
    | none => acc
    | some s =>
      let acc : Symbols :=
        ⟨acc.types ++ s.types, acc.constants ++ s.constants,
         acc.vars ++ s.vars, acc.functions ++ s.functions⟩
      match s.parent with
      | some pa => st.collect_chain fuel pa acc
      | none => acc

/-- Modelled from the spec: `symbols_visible_at(position)` finds the
innermost scope containing the position and unions its buckets with every
ancestor's buckets; it returns none only when no scope contains the
position (§4.3). -/
def SymbolTable.symbols_visible_at (st : SymbolTable) (p : Position) : Option Symbols :=
  match st.innermost p with
  | none => none
  | some i => some (st.collect_chain (st.scopes.length + 1) i ⟨[], [], [], []⟩)

/-- The per-document bundle (`Metadata` in `src/metadata/metadata.rs`). -/
structure Metadata where
  ast : Ast
  symbol_table : SymbolTable
deriving DecidableEq, Repr

/-- Model of `Metadata::new`: build the AST (the `?` operator propagates a
`None` from `Ast::new`), then the symbol table, and wrap both in `Some`. -/
def Metadata.new (source_code : String) (syntax_tree : CST) : Except String (Option Metadata) :=
  match Ast.new source_code syntax_tree with
  | Except.error e => Except.error e
  | Except.ok none => Except.ok none
  | Except.ok (some ast) => Except.ok (some ⟨ast, SymbolTable.new ast⟩)

/-- One open document (`File` in `src/main.rs`): its text and the last
parsed concrete tree. -/
structure File where
  content : String
  tree : Option CST

/-- One LSP content change (`TextDocumentContentChangeEvent`): an optional
affected range and the replacement text. -/
structure TextChangeEvent where
  range : Option Range
  text : String

/-- Lookup of a document by uri in the per-document map. -/
def lookup_file (files : List (String × File)) (uri : String) : Option File :=
  (files.find? (fun f => f.1 == uri)).map Prod.snd

/-- Replace a document's stored tree in the per-document map. -/
def set_file_tree (files : List (String × File)) (uri : String)
    (tree : Option CST) : List (String × File) :=
  files.map (fun f => if f.1 == uri then (f.1, ⟨f.2.content, tree⟩) else f)

/-- Model of one iteration of the `did_change` loop in `src/main.rs`.  The
ranged branch fetches the file (`get_mut(..).unwrap()`), then builds the
`InputEdit` whose `old_end_byte` and `old_end_position` initializers are
`todo!()` — it panics unconditionally before editing or re-parsing.  The
full-text branch re-parses the new text with the external parser and
stores the new tree (the parser collaborator is passed in as `parse`). -/
def apply_content_change (parse : String → Option CST)
    (files : List (String × File)) (uri : String) (change : TextChangeEvent) :
    Except String (List (String × File)) :=
  match change.range with
  | some _ =>
    match lookup_file files uri with
    | none => Except.error "called Option.unwrap on a None value"
    | some _ => Except.error "not yet implemented"
  | none =>
    let new_tree := parse change.text
    match lookup_file files uri with
    | none => Except.error "called Option.unwrap on a None value"
    | some _ => Except.ok (set_file_tree files uri new_tree)

/-- Model of `did_change` in `src/main.rs`: apply every content change in
order; a panic in any change aborts the handler. -/
def did_change (parse : String → Option CST) (files : List (String × File))
    (uri : String) : List TextChangeEvent → Except String (List (String × File))
  | [] => Except.ok files
  | c :: rest =>
    match apply_content_change parse files uri c with
    | Except.error e => Except.error e
    | Except.ok files' => did_change parse files' uri rest

/-!
State-passing forms of the facade queries.  Every query in
`src/metadata/ast/tree.rs` takes `&self` — an immutable borrow of a store
with no interior mutability — so running one is reading the store and
handing it back unchanged.  These wrappers make that explicit so the
frame property can be stated. -/

/-- State-passing run of `get_node`. -/
def Ast.get_node_run (a : Ast) (node_id : Nat) : Option Node × Ast :=
  (a.get_node node_id, a)

/-- State-passing run of `get_child_ids`. -/
def Ast.get_child_ids_run (a : Ast) (node_id : Nat) : List Nat × Ast :=
  (a.get_child_ids node_id, a)

/-- State-passing run of `get_child_of_kind`. -/
def Ast.get_child_of_kind_run (a : Ast) (node_id : Nat) (k : NodeKind) :
    Option Nat × Ast :=
  (a.get_child_of_kind node_id k, a)

/-- State-passing run of `get_subscope_ids`. -/
def Ast.get_subscope_ids_run (a : Ast) (node_id : Nat) : List Nat × Ast :=
  (a.get_subscope_ids node_id, a)

/-- State-passing run of `get_error_nodes`. -/
def Ast.get_error_nodes_run (a : Ast) : List Node × Ast :=
  (a.get_error_nodes, a)

/-- State-passing run of `get_type`. -/
def Ast.get_type_run (a : Ast) (node_id : Nat) : Option TypeValue × Ast :=
  (a.get_type node_id, a)

/-- State-passing run of `symbols_visible_at`. -/
def SymbolTable.symbols_visible_at_run (st : SymbolTable) (p : Position) :
    Option Symbols × SymbolTable :=
  (st.symbols_visible_at p, st)

/-- Base-type classification as the specification words it: trim the
token's text, exact-match against the keyword set to an unsized base
type, otherwise parse the contained integer-literal child (the token's
first named child, which is where the grammar puts the width) as an
unsigned 32-bit width, absent widths staying `none`, and classify by the
token's prefix.  This is the claim-side definition, to be compared with
`parse_base_type` from the source. -/
def classify_base_type (node : CST) : Option BaseType :=
  let text := rust_trim node.text
  if text = "bool" then some BaseType.Bool
  else if text = "int" then some BaseType.Int
  else if text = "bit" then some BaseType.Bit
  else if text = "string" then some BaseType.String
  else if text = "varbit" then some BaseType.Varbit
  else if text = "error" then some BaseType.Error
  else if text = "match_kind" then some BaseType.MatchKind
  else
    let width : Option Nat :=
      match node.namedChild 0 with
      | some c => if c.kind = "integer" then parse_u32 c.text else none
      | none => none
    if rust_starts_with text "int" then some (BaseType.SizedInt width)
    else if rust_starts_with text "bit" then some (BaseType.SizedBit width)
    else if rust_starts_with text "varbit" then some (BaseType.SizedVarbit width)
    else none

/-- Helper for building concrete ranges on one line. -/
def mkRange (l1 c1 l2 c2 : Nat) : Range :=
  ⟨⟨l1, c1⟩, ⟨l2, c2⟩⟩

/-- Helper for a concrete anonymous token node on line 0. -/
def tok (k : String) (c1 c2 : Nat) : CST :=
  CST.mk k (mkRange 0 c1 0 c2) k false none []

/-- The source text of the repository's own round-trip test. -/
def src16 : String := "const bit<16> TYPE_IPV4 = 10;"

/-- The `base_type` CST node for `bit<16>`: its named child is the
integer literal `16`. -/
def base_type_bit16 : CST :=
  CST.mk "base_type" (mkRange 0 6 0 13) "bit<16>" true none
    [ tok "bit" 6 9
    , tok "<" 9 10
    , CST.mk "integer" (mkRange 0 10 0 12) "16" true none []
    , tok ">" 12 13 ]

/-- The `constant_declaration` CST node for `const bit<16> TYPE_IPV4 = 10;`
as the grammar shapes it: the `type` field holds a type wrapper whose
named child is the `base_type`, the `name` field holds the identifier,
and the `value` field holds the literal (which the translator ignores). -/
def cdecl_bit16 : CST :=
  CST.mk "constant_declaration" (mkRange 0 0 0 29) src16 true none
    [ tok "const" 0 5
    , CST.mk "type_ref" (mkRange 0 6 0 13) "bit<16>" true (some "type")
        [ base_type_bit16 ]
    , CST.mk "identifier" (mkRange 0 14 0 23) "TYPE_IPV4" true (some "name") []
    , tok "=" 24 25
    , CST.mk "integer" (mkRange 0 26 0 28) "10" true (some "value") []
    , tok ";" 28 29 ]

/-- The whole concrete tree for `const bit<16> TYPE_IPV4 = 10;`. -/
def cst_const_bit16 : CST :=
  CST.mk "source_file" (mkRange 0 0 0 29) src16 true none [ cdecl_bit16 ]

/-- The translation of `const bit<16> TYPE_IPV4 = 10;`. -/
def ast_bit16 : Ast :=
  ((translate src16 cst_const_bit16).toOption).getD ⟨[], 0⟩

/-- The arena produced by `parse_const_dec` on the `bit<16>` declaration
starting from an empty arena. -/
def arena_cdec16 : Arena :=
  (((parse_const_dec [] cdecl_bit16).toOption).getD ([], none)).1

/-- The source text for the bare-`int` constant declaration. -/
def src_int : String := "const int x = 1;"

/-- The `base_type` CST node for the bare keyword `int`: no width child. -/
def base_type_int : CST :=
  CST.mk "base_type" (mkRange 0 6 0 9) "int" true none [ tok "int" 6 9 ]

/-- The type wrapper carrying the bare `int` base type. -/
def type_ref_int : CST :=
  CST.mk "type_ref" (mkRange 0 6 0 9) "int" true (some "type") [ base_type_int ]

/-- The `constant_declaration` CST node for `const int x = 1;`: the type
wrapper's named child is a `base_type` whose text is the bare keyword
`int` with no width child. -/
def cdecl_int : CST :=
  CST.mk "constant_declaration" (mkRange 0 0 0 16) src_int true none
    [ tok "const" 0 5
    , type_ref_int
    , CST.mk "identifier" (mkRange 0 10 0 11) "x" true (some "name") []
    , tok "=" 12 13
    , CST.mk "integer" (mkRange 0 14 0 15) "1" true (some "value") []
    , tok ";" 15 16 ]

/-- The arena produced by `parse_const_dec` on the bare-`int` declaration
starting from an empty arena. -/
def arena_cdec_int : Arena :=
  (((parse_const_dec [] cdecl_int).toOption).getD ([], none)).1

/-- The whole concrete tree for `const int x = 1;`. -/
def cst_const_int : CST :=
  CST.mk "source_file" (mkRange 0 0 0 16) src_int true none [ cdecl_int ]

/-- The translation of `const int x = 1;`. -/
def ast_int : Ast :=
  ((translate src_int cst_const_int).toOption).getD ⟨[], 0⟩

/-- The source text whose constant declaration uses a named type, one of
the type shapes the translator does not implement. -/
def src_tn : String := "const MyType x = 1;"

/-- The concrete tree for `const MyType x = 1;`: the type wrapper's named
child has kind `type_name`, which the translator hits with `todo!()`. -/
def cst_type_name : CST :=
  CST.mk "source_file" (mkRange 0 0 0 19) src_tn true none
    [ CST.mk "constant_declaration" (mkRange 0 0 0 19) src_tn true none
        [ tok "const" 0 5
        , CST.mk "type_ref" (mkRange 0 6 0 12) "MyType" true (some "type")
            [ CST.mk "type_name" (mkRange 0 6 0 12) "MyType" true none [] ]
        , CST.mk "identifier" (mkRange 0 13 0 14) "x" true (some "name") []
        , tok "=" 15 16
        , CST.mk "integer" (mkRange 0 17 0 18) "1" true (some "value") []
        , tok ";" 18 19 ] ]

/-- A parser stub for the `did_change` model (the concrete parser is the
external collaborator; the ranged-edit branch panics before ever calling
it, so its behavior is irrelevant there). -/
def parse_stub : String → Option CST :=
  fun _ => none

/-- A one-document session state for exercising `did_change`. -/
def files0 : List (String × File) :=
  [("file:///a.p4", ⟨"", none⟩)]

/-- A ranged (incremental) content change. -/
def change_ranged : TextChangeEvent :=
  ⟨some (mkRange 0 0 0 0), "x"⟩

/-- An empty concrete tree (a source file with no declarations). -/
def cst_empty : CST :=
  CST.mk "source_file" (mkRange 0 0 0 0) "" true none []

/-- The translation of the empty source file. -/
def ast_empty : Ast :=
  ⟨[⟨⟨NodeKind.Root, mkRange 0 0 0 0, ""⟩, []⟩], 0⟩

/-- Children recorded for a node id directly in an arena (the arena-level
view of `get_child_ids`). -/
def childrenOf (a : Arena) (i : Nat) : List Nat :=
  match a.get? i with
  | some e => e.children
  | none => []

/-- Node payload recorded for a node id directly in an arena (the
arena-level view of `get_node`). -/
def nodeOf (a : Arena) (i : Nat) : Option Node :=
  (a.get? i).map ArenaEntry.node

/-- Appending a child link does not change the number of arena slots. -/
theorem append_child_length (a : Arena) (p c : Nat) :
    (Arena.append_child a p c).length = a.length := by
  induction a generalizing p with
  | nil => rfl
  | cons e rest ih =>
    cases p with
    | zero => simp [Arena.append_child]
    | succ q => simp [Arena.append_child, ih]

/-- Appending a child link leaves every other slot untouched. -/
theorem append_child_get_ne (a : Arena) (p c j : Nat) (h : j ≠ p) :
    (Arena.append_child a p c).get? j = a.get? j := by
  induction a generalizing p j with
  | nil => rfl
  | cons e rest ih =>
    cases p with
    | zero =>
      cases j with
      | zero => exact absurd rfl h
      | succ j => simp [Arena.append_child]
    | succ q =>
      cases j with
      | zero => simp [Arena.append_child]
      | succ j =>
        simp only [Arena.append_child, List.get?_cons_succ]
        exact ih q j (fun hh => h (by omega))

/-- Appending a child link at a slot exposed as the head of the tail of a
concatenation records the child at the end of that slot's child list. -/
theorem append_child_concat (a : Arena) (e : ArenaEntry) (rest : Arena) (c : Nat) :
    Arena.append_child (a ++ e :: rest) a.length c =
      a ++ ⟨e.node, e.children ++ [c]⟩ :: rest := by
  induction a with
  | nil => rfl
  | cons x xs ih => simp [Arena.append_child, ih]

/-- Appending a child link rewrites exactly the parent's slot, adding the
child at the end of its child list. -/
theorem append_child_get_eq (a : Arena) (p c : Nat) :
    (Arena.append_child a p c).get? p =
      (a.get? p).map (fun e => ⟨e.node, e.children ++ [c]⟩) := by
  induction a generalizing p with
  | nil => simp [Arena.append_child]
  | cons e rest ih =>
    cases p with
    | zero => simp [Arena.append_child]
    | succ q => simpa [Arena.append_child] using ih q

/-- Characterization of a successful `parse_type` run: it allocates
exactly one `Type` node (at the next free id) whose type value comes from
classifying the first named child. -/
theorem parse_type_spec {a : Arena} {n : CST} {a' : Arena} {r : Option Nat}
    (h : parse_type a n = Except.ok (a', r)) :
    r = some a.length ∧
    ∃ child tv, n.namedChild 0 = some child ∧
      parse_type_value n child = Except.ok tv ∧
      a' = a ++ [⟨⟨NodeKind.Type tv, n.range, n.text⟩, []⟩] := by
  unfold parse_type at h
  split at h
  · exact absurd h (by simp)
  · rename_i child hc
    split at h
    · exact absurd h (by simp)
    · rename_i tv hv
      simp only [Arena.new_node, Except.ok.injEq, Prod.mk.injEq] at h
      exact ⟨h.2.symm, child, tv, hc, hv, h.1.symm⟩

/-- Characterization of a successful `parse_const_dec` run: it allocates
exactly three nodes — the `ConstantDec` node at the next free id, then
its `Type` child, then its `Name` child — and links the type child before
the name child, no matter where the `type` and `name` fields sit among
the CST node's children. -/
theorem parse_const_dec_spec {a : Arena} {c : CST} {a' : Arena} {r : Option Nat}
    (h : parse_const_dec a c = Except.ok (a', r)) :
    r = some a.length ∧
    ∃ tnode nnode child tv,
      c.child_by_field_name "type" = some tnode ∧
      c.child_by_field_name "name" = some nnode ∧
      tnode.namedChild 0 = some child ∧
      parse_type_value tnode child = Except.ok tv ∧
      a' = a ++
        [⟨⟨NodeKind.ConstantDec, c.range, c.text⟩, [a.length + 1, a.length + 2]⟩,
         ⟨⟨NodeKind.Type tv, tnode.range, tnode.text⟩, []⟩,
         ⟨⟨NodeKind.Name, nnode.range, nnode.text⟩, []⟩] := by
  unfold parse_const_dec at h
  simp only [Arena.new_node] at h
  split at h
  · exact absurd h (by simp)
  · rename_i tnode ht
    split at h
    · exact absurd h (by simp)
    · rename_i a2 tid hp
      obtain ⟨htid, child, tv, hchild, htv, ha2⟩ := parse_type_spec hp
      subst htid ha2
      split at h
      · exact absurd h (by simp)
      · rename_i tid htid
        simp only [List.length_append, List.length_cons, List.length_nil,
          Option.some.injEq] at htid
        subst htid
        split at h
        · exact absurd h (by simp)
        · rename_i nnode hn
          split at h
          · rename_i hnm
            exact absurd h (by simp)
          · rename_i a3 nid hnm
            simp only [parse_name, Arena.new_node, Prod.mk.injEq,
              Option.some.injEq] at hnm
            obtain ⟨ha3, hnid⟩ := hnm
            rw [show a ++ [⟨⟨NodeKind.ConstantDec, c.range, c.text⟩, []⟩] ++
                  [⟨⟨NodeKind.Type tv, tnode.range, tnode.text⟩, []⟩] =
                a ++ ⟨⟨NodeKind.ConstantDec, c.range, c.text⟩, []⟩ ::
                  [⟨⟨NodeKind.Type tv, tnode.range, tnode.text⟩, []⟩] by simp]
              at ha3
            rw [append_child_concat] at ha3
            rw [append_child_length] at hnid
            simp only [List.length_append, List.length_cons, List.length_nil,
              List.nil_append] at ha3 hnid
            subst ha3 hnid
            rw [show a ++ ⟨⟨NodeKind.ConstantDec, c.range, c.text⟩, [a.length + 1]⟩ ::
                  [⟨⟨NodeKind.Type tv, tnode.range, tnode.text⟩, []⟩] ++
                  [⟨⟨NodeKind.Name, nnode.range, nnode.text⟩, []⟩] =
                a ++ ⟨⟨NodeKind.ConstantDec, c.range, c.text⟩, [a.length + 1]⟩ ::
                  [⟨⟨NodeKind.Type tv, tnode.range, tnode.text⟩, []⟩,
                   ⟨⟨NodeKind.Name, nnode.range, nnode.text⟩, []⟩] by simp] at h
            rw [append_child_concat] at h
            simp only [Except.ok.injEq, Prod.mk.injEq] at h
            refine ⟨h.2.symm, tnode, nnode, child, tv, ht, hn, hchild, htv, ?_⟩
            rw [← h.1]
            simp

/-- Facts about one step of the root loop: appending a block of fresh
entries and then linking the block's first entry to the root extends the
root's child list by its id, preserves every old node payload, and places
the block's entries behind the old length. -/
theorem append_block_facts (a : Arena) (root : Nat) (e : ArenaEntry)
    (B : List ArenaEntry) (hr : root < a.length) :
    childrenOf (Arena.append_child (a ++ e :: B) root a.length) root =
      childrenOf a root ++ [a.length] ∧
    nodeOf (Arena.append_child (a ++ e :: B) root a.length) root = nodeOf a root ∧
    (∀ j, j ≠ root → j < a.length →
      nodeOf (Arena.append_child (a ++ e :: B) root a.length) j = nodeOf a j) ∧
    nodeOf (Arena.append_child (a ++ e :: B) root a.length) a.length = some e.node ∧
    (Arena.append_child (a ++ e :: B) root a.length).length =
      a.length + 1 + B.length := by
  have hne : a.length ≠ root := Nat.ne_of_gt hr
  obtain ⟨e0, he0⟩ : ∃ e0, a.get? root = some e0 := by
    cases hg : a.get? root with
    | none => exact absurd (List.get?_eq_none.mp hg) (by omega)
    | some e0 => exact ⟨e0, rfl⟩
  have hget1 : (a ++ e :: B).get? root = some e0 := by
    rw [List.get?_append hr]; exact he0
  refine ⟨?_, ?_, ?_, ?_, ?_⟩
  · unfold childrenOf
    rw [append_child_get_eq, hget1, he0]
    simp
  · unfold nodeOf
    rw [append_child_get_eq, hget1, he0]
    simp
  · intro j hj hjl
    unfold nodeOf
    rw [append_child_get_ne _ _ _ _ hj, List.get?_append hjl]
  · unfold nodeOf
    rw [append_child_get_ne _ _ _ _ hne,
      List.get?_append_right (Nat.le_refl _)]
    simp
  · rw [append_child_length]
    simp
    omega

/-- Invariant of the root child loop: a successful run appends to the
root's child list exactly one `ConstantDec` node per
`constant_declaration` CST child, in source order, and leaves every
pre-existing node payload (the root's included) unchanged. -/
theorem parse_root_children_spec :
    ∀ (l : List CST) (a : Arena) (root : Nat) (a' : Arena),
      parse_root_children a root l = Except.ok a' →
      root < a.length →
      ∃ ids,
        childrenOf a' root = childrenOf a root ++ ids ∧
        ids.map (fun i => nodeOf a' i) =
          (l.filter (fun c => decide (c.kind = "constant_declaration"))).map
            (fun c => some ⟨NodeKind.ConstantDec, c.range, c.text⟩) ∧
        nodeOf a' root = nodeOf a root ∧
        (∀ j, j ≠ root → j < a.length → nodeOf a' j = nodeOf a j) ∧
        a.length ≤ a'.length := by
  intro l
  induction l with
  | nil =>
    intro a root a' h _
    simp only [parse_root_children, Except.ok.injEq] at h
    subst h
    exact ⟨[], by simp, by simp, rfl, fun _ _ _ => rfl, Nat.le_refl _⟩
  | cons c rest ih =>
    intro a root a' h hr
    simp only [parse_root_children] at h
    by_cases hk : c.kind = "constant_declaration"
    · rw [if_pos hk] at h
      split at h
      · exact absurd h (by simp)
      · rename_i a1 id hp
        obtain ⟨hid, tnode, nnode, child, tv, _, _, _, _, ha1⟩ :=
          parse_const_dec_spec hp
        simp only [Option.some.injEq] at hid
        subst hid ha1
        obtain ⟨f1, f2, f3, f4, f5⟩ := append_block_facts a root
          ⟨⟨NodeKind.ConstantDec, c.range, c.text⟩, [a.length + 1, a.length + 2]⟩
          [⟨⟨NodeKind.Type tv, tnode.range, tnode.text⟩, []⟩,
           ⟨⟨NodeKind.Name, nnode.range, nnode.text⟩, []⟩] hr
        obtain ⟨ids', h1, h2, h3, h4, h5⟩ :=
          ih _ root a' h (by rw [f5]; omega)
        refine ⟨a.length :: ids', ?_, ?_, ?_, ?_, ?_⟩
        · rw [h1, f1]
          simp
        · rw [List.filter_cons_of_pos (by simp [hk]), List.map_cons,
            List.map_cons, ← h2]
          have hL' : nodeOf a' a.length = some ⟨NodeKind.ConstantDec, c.range, c.text⟩ := by
            rw [h4 a.length (Nat.ne_of_gt hr) (by rw [f5]; omega), f4]
          rw [hL']
        · rw [h3, f2]
        · intro j hj hjl
          rw [h4 j hj (by rw [f5]; omega), f3 j hj hjl]
        · have h6 := f5
          simp only [List.length_cons, List.length_nil] at h6
          omega
      · rename_i a1 hp
        obtain ⟨hid, _⟩ := parse_const_dec_spec hp
        exact absurd hid (by simp)
    · rw [if_neg hk] at h
      obtain ⟨ids, h1, h2, h3, h4, h5⟩ := ih a root a' h hr
      exact ⟨ids, h1, by rw [List.filter_cons_of_neg (by simp [hk])]; exact h2,
        h3, h4, h5⟩

/-- The facade child query on a wrapped arena is the arena-level child
query. -/
theorem get_child_ids_eq (a : Arena) (r i : Nat) :
    Ast.get_child_ids ⟨a, r⟩ i = childrenOf a i := rfl

/-- The facade node query on a wrapped arena is the arena-level node
query. -/
theorem get_node_eq (a : Arena) (r i : Nat) :
    Ast.get_node ⟨a, r⟩ i = nodeOf a i := rfl

/-- First slot of a three-entry block appended to an arena. -/
theorem get_append3_0 (a : Arena) (x y z : ArenaEntry) :
    (a ++ [x, y, z]).get? a.length = some x := by
  rw [List.get?_append_right (Nat.le_refl _)]
  simp

/-- Second slot of a three-entry block appended to an arena. -/
theorem get_append3_1 (a : Arena) (x y z : ArenaEntry) :
    (a ++ [x, y, z]).get? (a.length + 1) = some y := by
  rw [List.get?_append_right (by omega)]
  simp

/-- Third slot of a three-entry block appended to an arena. -/
theorem get_append3_2 (a : Arena) (x y z : ArenaEntry) :
    (a ++ [x, y, z]).get? (a.length + 2) = some z := by
  rw [List.get?_append_right (by omega)]
  simp

/-- Claim C1: the specification promises that `translate` never panics
and that unrecognized or malformed constructs (error-recovered nodes,
unimplemented type shapes, unparsable widths, unknown sized-type
keywords) become `ErrorNode` AST nodes while translation of the
remaining siblings continues.  The code does the opposite: on a constant
declaration whose type shape is a named type (`type_name`), the
translator hits `todo!()` and aborts the whole translation, producing no
AST at all — this theorem evaluates the code at that failing input. -/
theorem claim_C1 :
    translate src_tn cst_type_name = Except.error "not yet implemented" := rfl

/-- Claim C2: the specification requires the incremental edit path to
agree with a full re-parse of the edited text.  The code's ranged-edit
branch of `did_change` evaluates `todo!()` while building the
`InputEdit` (its `old_end_byte` and `old_end_position` fields) and
panics before editing, re-parsing or re-translating anything, so the
incremental path never produces a state at all: this theorem evaluates
the handler on a one-document session receiving one ranged change. -/
theorem claim_C2 :
    did_change parse_stub files0 "file:///a.p4" [change_ranged] =
      Except.error "not yet implemented" := rfl

/-- Claim C3: translating `const bit<16> TYPE_IPV4 = 10;` yields an AST
whose root has exactly one child, a `ConstantDec` node, whose `Type`
child carries `Base(SizedBit(Some 16))` and whose `Name` child's content
is `TYPE_IPV4`. -/
theorem claim_C3 :
    translate src16 cst_const_bit16 = Except.ok ast_bit16 ∧
    ast_bit16.get_child_ids ast_bit16.get_root_id = [1] ∧
    (ast_bit16.get_node 1).map Node.kind = some NodeKind.ConstantDec ∧
    ast_bit16.get_type 1 = some (TypeValue.Base (BaseType.SizedBit (some 16))) ∧
    ((ast_bit16.get_child_of_kind 1 NodeKind.Name).bind ast_bit16.get_node).map
      Node.content = some "TYPE_IPV4" :=
  ⟨rfl, rfl, rfl, rfl, rfl⟩

/-- Claim C6: every declaration node the translator produces links its
children in the canonical order type first, then name (the value child
is never produced — it is a TODO in the source), so the `Type` child
always precedes the `Name` child, whatever the order of the fields among
the CST node's children. -/
theorem claim_C6 :
    ∀ (a : Arena) (c : CST) (a' : Arena) (id : Nat),
      parse_const_dec a c = Except.ok (a', some id) →
      ∃ tid nid tv,
        childrenOf a' id = [tid, nid] ∧
        (nodeOf a' tid).map Node.kind = some (NodeKind.Type tv) ∧
        (nodeOf a' nid).map Node.kind = some NodeKind.Name := by
  intro a c a' id h
  obtain ⟨hid, tnode, nnode, child, tv, _, _, _, _, ha⟩ := parse_const_dec_spec h
  simp only [Option.some.injEq] at hid
  subst hid ha
  refine ⟨a.length + 1, a.length + 2, tv, ?_, ?_, ?_⟩
  · unfold childrenOf
    rw [get_append3_0]
  · unfold nodeOf
    rw [get_append3_1]
    rfl
  · unfold nodeOf
    rw [get_append3_2]
    rfl

/-- Witness for claim C6 at the concrete `bit<16>` declaration. -/
theorem claim_C6_witness :
    parse_const_dec [] cdecl_bit16 = Except.ok (arena_cdec16, some 0) ∧
    (∃ tid nid tv,
      childrenOf arena_cdec16 0 = [tid, nid] ∧
      (nodeOf arena_cdec16 tid).map Node.kind = some (NodeKind.Type tv) ∧
      (nodeOf arena_cdec16 nid).map Node.kind = some NodeKind.Name) :=
  ⟨rfl, claim_C6 [] cdecl_bit16 arena_cdec16 0 rfl⟩

/-- Claim C7: for every concrete tree, a successful translation gives the
root exactly one AST child per `constant_declaration` CST child of the
root, in source order — each a `ConstantDec` node carrying that child's
range and text — and top-level CST children of any other kind contribute
no AST child. -/
theorem claim_C7 :
    ∀ (src : String) (t : CST) (ast : Ast),
      translate src t = Except.ok ast →
      (ast.get_child_ids ast.get_root_id).map (fun i => ast.get_node i) =
        (t.children.filter (fun c => decide (c.kind = "constant_declaration"))).map
          (fun c => some ⟨NodeKind.ConstantDec, c.range, c.text⟩) := by
  intro src t ast h
  unfold translate at h
  split at h
  · exact absurd h (by simp)
  · rename_i a root_id hpr
    simp only [Except.ok.injEq] at h
    subst h
    unfold parse_root at hpr
    simp only [Arena.new_node] at hpr
    split at hpr
    · exact absurd hpr (by simp)
    · rename_i a2 hprc
      simp only [List.nil_append, List.length_nil] at hprc
      simp only [Except.ok.injEq, Prod.mk.injEq, List.length_nil] at hpr
      obtain ⟨ha2, hroot⟩ := hpr
      subst ha2 hroot
      obtain ⟨ids, h1, h2, _, _, _⟩ :=
        parse_root_children_spec t.children
          [⟨⟨NodeKind.Root, t.range, src⟩, []⟩] 0 a2 hprc (by simp)
      have hc0 : childrenOf [(⟨⟨NodeKind.Root, t.range, src⟩, []⟩ : ArenaEntry)] 0 = [] := rfl
      rw [hc0, List.nil_append] at h1
      show (Ast.get_child_ids ⟨a2, 0⟩ (Ast.get_root_id ⟨a2, 0⟩)).map
          (fun i => Ast.get_node ⟨a2, 0⟩ i) = _
      rw [Ast.get_root_id, get_child_ids_eq, h1]
      simp only [get_node_eq]
      exact h2

/-- Witness for claim C7 at the concrete `const bit<16> TYPE_IPV4 = 10;`
tree. -/
theorem claim_C7_witness :
    translate src16 cst_const_bit16 = Except.ok ast_bit16 ∧
    (ast_bit16.get_child_ids ast_bit16.get_root_id).map
        (fun i => ast_bit16.get_node i) =
      (cst_const_bit16.children.filter
          (fun c => decide (c.kind = "constant_declaration"))).map
        (fun c => some ⟨NodeKind.ConstantDec, c.range, c.text⟩) :=
  ⟨rfl, claim_C7 src16 cst_const_bit16 ast_bit16 rfl⟩

/-- Claim C9: every facade query — `get_node`, `get_child_ids`,
`get_child_of_kind`, `get_subscope_ids`, `get_error_nodes`, `get_type`,
and the position query `symbols_visible_at` — hands the store back
unchanged, and running the same query again on the state left by the
first run returns the same result. -/
theorem claim_C9 :
    ∀ (a : Ast) (i : Nat) (k : NodeKind) (st : SymbolTable) (p : Position),
      (a.get_node_run i).2 = a ∧
      (a.get_child_ids_run i).2 = a ∧
      (a.get_child_of_kind_run i k).2 = a ∧
      (a.get_subscope_ids_run i).2 = a ∧
      (Ast.get_error_nodes_run a).2 = a ∧
      (a.get_type_run i).2 = a ∧
      (st.symbols_visible_at_run p).2 = st ∧
      ((a.get_node_run i).2.get_node_run i).1 = (a.get_node_run i).1 ∧
      ((a.get_child_ids_run i).2.get_child_ids_run i).1 =
        (a.get_child_ids_run i).1 ∧
      ((a.get_child_of_kind_run i k).2.get_child_of_kind_run i k).1 =
        (a.get_child_of_kind_run i k).1 ∧
      ((a.get_subscope_ids_run i).2.get_subscope_ids_run i).1 =
        (a.get_subscope_ids_run i).1 ∧
      (Ast.get_error_nodes_run (Ast.get_error_nodes_run a).2).1 =
        (Ast.get_error_nodes_run a).1 ∧
      ((a.get_type_run i).2.get_type_run i).1 = (a.get_type_run i).1 ∧
      ((st.symbols_visible_at_run p).2.symbols_visible_at_run p).1 =
        (st.symbols_visible_at_run p).1 :=
  fun _ _ _ _ _ =>
    ⟨rfl, rfl, rfl, rfl, rfl, rfl, rfl, rfl, rfl, rfl, rfl, rfl, rfl, rfl⟩

/-- Claim C10: whenever `Ast::new` or `Metadata::new` returns at all (no
panic inside translation), the returned `Option` is `Some`; failure is
never signalled through `None`, so callers must consult the error nodes
instead. -/
theorem claim_C10 :
    (∀ (s : String) (t : CST) (r : Option Ast),
      Ast.new s t = Except.ok r → r.isSome = true) ∧
    (∀ (s : String) (t : CST) (m : Option Metadata),
      Metadata.new s t = Except.ok m → m.isSome = true) := by
  constructor
  · intro s t r h
    unfold Ast.new at h
    split at h
    · exact absurd h (by simp)
    · simp only [Except.ok.injEq] at h
      subst h
      rfl
  · intro s t m h
    unfold Metadata.new at h
    split at h
    · exact absurd h (by simp)
    · rename_i heq
      unfold Ast.new at heq
      split at heq
      · exact absurd heq (by simp)
      · exact absurd heq (by simp)
    · simp only [Except.ok.injEq] at h
      subst h
      rfl

/-- Witness for claim C10 at the empty source file. -/
theorem claim_C10_witness :
    Ast.new "" cst_empty = Except.ok (some ast_empty) ∧
    (some ast_empty).isSome = true :=
  ⟨rfl, claim_C10.1 "" cst_empty (some ast_empty) rfl⟩

/-- Counterexample to claim C4 as stated: translating `const int x = 1;`
gives the constant declaration a `Type` child carrying `Base(Int)` — the
exact keyword match takes the unsized branch — not
`Base(SizedInt(None))` as the claim asserts. -/
theorem claim_C4_counterexample :
    translate src_int cst_const_int = Except.ok ast_int ∧
    ast_int.get_type 1 = some (TypeValue.Base BaseType.Int) ∧
    ¬ ast_int.get_type 1 = some (TypeValue.Base (BaseType.SizedInt none)) :=
  ⟨rfl, rfl, fun h => by
    rw [show ast_int.get_type 1 = some (TypeValue.Base BaseType.Int) from rfl] at h
    exact absurd h (by decide)⟩

/-- Claim C4 as amended: translating a constant declaration whose type is
the bare keyword `int` (no angle-bracket width) produces a `Type` child
carrying `Base(Int)` — the exact keyword match wins before any sized
classification. -/
theorem claim_C4 :
    ∀ (a : Arena) (c : CST) (a' : Arena) (r : Option Nat) (rid : Nat)
      (tnode child : CST),
      parse_const_dec a c = Except.ok (a', r) →
      c.child_by_field_name "type" = some tnode →
      tnode.namedChild 0 = some child →
      child.kind = "base_type" →
      rust_trim child.text = "int" →
      Ast.get_type ⟨a', rid⟩ a.length = some (TypeValue.Base BaseType.Int) := by
  intro a c a' r rid tnode child h ht hc hk htext
  obtain ⟨hr, tnode', nnode, child', tv, ht', hn', hc', htv, ha⟩ :=
    parse_const_dec_spec h
  rw [ht] at ht'
  simp only [Option.some.injEq] at ht'
  subst ht'
  rw [hc] at hc'
  simp only [Option.some.injEq] at hc'
  subst hc'
  have hbt : parse_base_type child = Except.ok BaseType.Int := by
    simp only [parse_base_type]
    rw [htext]
    rw [if_neg (by decide), if_pos rfl]
  have htv2 : parse_type_value tnode child = Except.ok (TypeValue.Base BaseType.Int) := by
    unfold parse_type_value
    rw [if_pos hk, hbt]
  rw [htv2] at htv
  simp only [Except.ok.injEq] at htv
  subst htv
  subst ha
  unfold Ast.get_type
  rw [get_child_ids_eq]
  unfold childrenOf
  rw [get_append3_0]
  have h1 : Ast.get_node ⟨a ++
      [⟨⟨NodeKind.ConstantDec, c.range, c.text⟩, [a.length + 1, a.length + 2]⟩,
       ⟨⟨NodeKind.Type (TypeValue.Base BaseType.Int), tnode.range, tnode.text⟩, []⟩,
       ⟨⟨NodeKind.Name, nnode.range, nnode.text⟩, []⟩], rid⟩ (a.length + 1) =
      some ⟨NodeKind.Type (TypeValue.Base BaseType.Int), tnode.range, tnode.text⟩ := by
    rw [get_node_eq]
    unfold nodeOf
    rw [get_append3_1]
    rfl
  simp only [List.findSome?_cons, h1]

/-- Witness for the amended claim C4 at the concrete `const int x = 1;`
declaration. -/
theorem claim_C4_witness :
    parse_const_dec [] cdecl_int = Except.ok (arena_cdec_int, some 0) ∧
    Ast.get_type ⟨arena_cdec_int, 0⟩ 0 = some (TypeValue.Base BaseType.Int) :=
  ⟨rfl, claim_C4 [] cdecl_int arena_cdec_int (some 0) 0 type_ref_int
    base_type_int rfl rfl rfl rfl rfl⟩

/-- One branch shared by the code's and the claim's base-type
classification: if the sized if-chain over the three known keyword
stems succeeds, the claim-side chain returns the same sized base type. -/
theorem sized_chain_agrees (t : String) (s : Option Nat) (b : BaseType)
    (h : (if rust_starts_with t "int" then Except.ok (BaseType.SizedInt s)
          else if rust_starts_with t "bit" then Except.ok (BaseType.SizedBit s)
          else if rust_starts_with t "varbit" then Except.ok (BaseType.SizedVarbit s)
          else Except.error "Invalid type") = Except.ok b) :
    (if rust_starts_with t "int" then some (BaseType.SizedInt s)
     else if rust_starts_with t "bit" then some (BaseType.SizedBit s)
     else if rust_starts_with t "varbit" then some (BaseType.SizedVarbit s)
     else none) = some b := by
  by_cases h1 : rust_starts_with t "int"
  · simp only [if_pos h1, Except.ok.injEq] at h
    simp only [if_pos h1, h]
  · simp only [if_neg h1] at h
    simp only [if_neg h1]
    by_cases h2 : rust_starts_with t "bit"
    · simp only [if_pos h2, Except.ok.injEq] at h
      simp only [if_pos h2, h]
    · simp only [if_neg h2] at h
      simp only [if_neg h2]
      by_cases h3 : rust_starts_with t "varbit"
      · simp only [if_pos h3, Except.ok.injEq] at h
        simp only [if_pos h3, h]
      · simp only [if_neg h3] at h
        exact absurd h (by simp)

/-- Claim C5: whenever the code's base-type classification succeeds, its
result is exactly what the specification describes — trim the token's
text, exact-match the keyword set to an unsized base type, and otherwise
parse the contained integer-literal child (when present) as an unsigned
32-bit width and classify by the token's stem: `int` to SizedInt, `bit`
to SizedBit, `varbit` to SizedVarbit. -/
theorem claim_C5 :
    ∀ (n : CST) (b : BaseType),
      parse_base_type n = Except.ok b → classify_base_type n = some b := by
  intro n b h
  simp only [parse_base_type] at h
  simp only [classify_base_type]
  by_cases h1 : rust_trim n.text = "bool"
  · simp only [if_pos h1, Except.ok.injEq] at h
    simp only [if_pos h1, h]
  · simp only [if_neg h1] at h
    simp only [if_neg h1]
    by_cases h2 : rust_trim n.text = "int"
    · simp only [if_pos h2, Except.ok.injEq] at h
      simp only [if_pos h2, h]
    · simp only [if_neg h2] at h
      simp only [if_neg h2]
      by_cases h3 : rust_trim n.text = "bit"
      · simp only [if_pos h3, Except.ok.injEq] at h
        simp only [if_pos h3, h]
      · simp only [if_neg h3] at h
        simp only [if_neg h3]
        by_cases h4 : rust_trim n.text = "string"
        · simp only [if_pos h4, Except.ok.injEq] at h
          simp only [if_pos h4, h]
        · simp only [if_neg h4] at h
          simp only [if_neg h4]
          by_cases h5 : rust_trim n.text = "varbit"
          · simp only [if_pos h5, Except.ok.injEq] at h
            simp only [if_pos h5, h]
          · simp only [if_neg h5] at h
            simp only [if_neg h5]
            by_cases h6 : rust_trim n.text = "error"
            · simp only [if_pos h6, Except.ok.injEq] at h
              simp only [if_pos h6, h]
            · simp only [if_neg h6] at h
              simp only [if_neg h6]
              by_cases h7 : rust_trim n.text = "match_kind"
              · simp only [if_pos h7, Except.ok.injEq] at h
                simp only [if_pos h7, h]
              · simp only [if_neg h7] at h
                simp only [if_neg h7]
                cases hnc : n.namedChild 0 with
                | none =>
                  simp only [hnc] at h
                  exact absurd h (by simp)
                | some child =>
                  simp only [hnc] at h ⊢
                  by_cases hk : child.kind = "integer"
                  · simp only [if_pos hk] at h
                    simp only [if_pos hk]
                    cases hw : parse_u32 child.text with
                    | none =>
                      simp only [hw] at h
                      exact absurd h (by simp)
                    | some w =>
                      simp only [hw] at h
                      exact sized_chain_agrees _ _ _ h
                  · simp only [if_neg hk] at h
                    simp only [if_neg hk]
                    exact sized_chain_agrees _ _ _ h

/-- Witness for claim C5 at the concrete `bit<16>` base-type token. -/
theorem claim_C5_witness :
    parse_base_type base_type_bit16 = Except.ok (BaseType.SizedBit (some 16)) ∧
    classify_base_type base_type_bit16 = some (BaseType.SizedBit (some 16)) :=
  ⟨rfl, claim_C5 base_type_bit16 (BaseType.SizedBit (some 16)) rfl⟩

/-- Claim C8: a node kind is a scope node exactly when it is `Root`,
`ParserDec` or `Body`, and the subscope query returns exactly the
subsequence of a node's children (in source order) whose kind satisfies
that predicate. -/
theorem claim_C8 :
    (∀ k : NodeKind, k.is_scope_node = true ↔
      (k = NodeKind.Root ∨ k = NodeKind.ParserDec ∨ k = NodeKind.Body)) ∧
    ∀ (a : Ast) (i : Nat),
      List.Sublist (a.get_subscope_ids i) (a.get_child_ids i) ∧
      ∀ c, c ∈ a.get_subscope_ids i ↔
        (c ∈ a.get_child_ids i ∧
          ∃ n, a.get_node c = some n ∧ n.kind.is_scope_node = true) := by
  constructor
  · intro k
    cases k <;>
      simp [NodeKind.is_scope_node, SCOPE_NODES, List.contains, List.elem_eq_mem]
  · intro a i
    constructor
    · exact List.filter_sublist _
    · intro c
      unfold Ast.get_subscope_ids
      simp only [List.mem_filter]
      cases hg : a.get_node c with
      | none => simp [hg]
      | some n => simp [hg]

end P4
